import Mathlib

/-!
# Verification of the Audio-Compressor-Simulator core

Shallow embedding of the repository's dynamics-processing engine
(`processAudio` in the audio-engine module), of the playback-phase
computation in the visualizer's `draw` loop, and of the loop re-anchoring
logic `restartPlayback` in `App.tsx`.  Sample values are idealized as real
numbers; buffers are lists of reals; JavaScript's `%` on a nonzero divisor
is the truncating remainder `jsRem`.
-/

namespace AudioSim

noncomputable section

/-- `const SAMPLE_RATE = 44100` (audio engine module). -/
def SAMPLE_RATE : ℝ := 44100

/-- `const DURATION = 3.0` (audio engine module). -/
def DURATION : ℝ := 3

/-- The `CompressorParams` interface from `types.ts`. -/
structure CompressorParams where
  threshold : ℝ
  ratio : ℝ
  attack : ℝ
  release : ℝ
  makeupGain : ℝ

/-- The `ProcessedAudioData` interface from `types.ts`. -/
structure ProcessedAudioData where
  inputBuffer : List ℝ
  outputBuffer : List ℝ
  gainReductionBuffer : List ℝ
  maxReductiondB : ℝ
  duration : ℝ
  sampleRate : ℝ

/-- Level detection of `processAudio`:
`const inputdB = inputAbs < 0.000001 ? -100 : 20 * Math.log10(inputAbs)`. -/
def leveldB (x : ℝ) : ℝ :=
  if |x| < 0.000001 then -100 else 20 * Real.logb 10 |x|

/-- Gain computer of `processAudio`:
`targetGRdB = inputdB > threshold ? (inputdB - threshold) * (1 - 1/ratio) : 0`. -/
def targetGRdB (threshold ratio l : ℝ) : ℝ :=
  if l > threshold then (l - threshold) * (1 - 1 / ratio) else 0

/-- Ballistics step of `processAudio`: one-pole smoothing of the envelope
toward the target reduction, attack coefficient when the target exceeds the
envelope, release coefficient otherwise. -/
def nextEnv (ac rc threshold ratio env x : ℝ) : ℝ :=
  if targetGRdB threshold ratio (leveldB x) > env then
    ac * env + (1 - ac) * targetGRdB threshold ratio (leveldB x)
  else
    rc * env + (1 - rc) * targetGRdB threshold ratio (leveldB x)

/-- `const attackCoeff = Math.exp(-1 / ((params.attack / 1000) * SAMPLE_RATE))`. -/
def attackCoeff (params : CompressorParams) : ℝ :=
  Real.exp (-1 / ((params.attack / 1000) * SAMPLE_RATE))

/-- `const releaseCoeff = Math.exp(-1 / ((params.release / 1000) * SAMPLE_RATE))`. -/
def releaseCoeff (params : CompressorParams) : ℝ :=
  Real.exp (-1 / ((params.release / 1000) * SAMPLE_RATE))

/-- `const makeupLinear = Math.pow(10, params.makeupGain / 20)`. -/
def makeupLinear (params : CompressorParams) : ℝ :=
  (10 : ℝ) ^ (params.makeupGain / 20)

/-- The per-sample loop of `processAudio` (lines 80–126): carries the
envelope and the running `maxReductiondB`, and produces the output buffer,
the gain-reduction buffer, and the final `maxReductiondB`. -/
def processLoop (ac rc threshold ratio mk : ℝ) :
    List ℝ → ℝ → ℝ → List ℝ × List ℝ × ℝ
  | [], _, maxRed => ([], [], maxRed)
  | x :: xs, env, maxRed =>
      let env' := nextEnv ac rc threshold ratio env x
      let gain := (10 : ℝ) ^ (-env' / 20)
      let rest := processLoop ac rc threshold ratio mk xs env'
        (if env' > maxRed then env' else maxRed)
      (x * gain * mk :: rest.1, gain :: rest.2.1, rest.2.2)

/-- `processAudio(input, params)` from the audio-engine module: envelope and
maximum reduction start at 0 on every call, the makeup factor is computed
once, and the result records the constant `DURATION` and `SAMPLE_RATE`. -/
def processAudio (input : List ℝ) (params : CompressorParams) :
    ProcessedAudioData :=
  { inputBuffer := input
    outputBuffer := (processLoop (attackCoeff params) (releaseCoeff params)
      params.threshold params.ratio (makeupLinear params) input 0 0).1
    gainReductionBuffer := (processLoop (attackCoeff params) (releaseCoeff params)
      params.threshold params.ratio (makeupLinear params) input 0 0).2.1
    maxReductiondB := (processLoop (attackCoeff params) (releaseCoeff params)
      params.threshold params.ratio (makeupLinear params) input 0 0).2.2
    duration := DURATION
    sampleRate := SAMPLE_RATE }

/-- Truncation toward zero, the rounding used by JavaScript's `%`. -/
def truncR (x : ℝ) : ℤ :=
  if 0 ≤ x then ⌊x⌋ else ⌈x⌉

/-- JavaScript's remainder operator `a % d` for a nonzero divisor `d`:
the remainder of truncating division, with the sign of the dividend. -/
def jsRem (a d : ℝ) : ℝ :=
  a - d * truncR (a / d)

/-- `const manualOffset = -0.18` (visualizer `draw`, line 49). -/
def manualOffset : ℝ := -0.18

/-- The latency-compensated timestamp of the visualizer's `draw`:
`adjustedNow = now - (sysLatency + manualOffset)`. -/
def adjustedNow (now sysLatency : ℝ) : ℝ :=
  now - (sysLatency + manualOffset)

/-- The playback-phase computation of the visualizer's `draw` (lines 39–66):
elapsed time since the sync anchor modulo the loop duration, negative
remainders shifted up by one duration, divided by the duration. -/
def playbackProgress (now sysLatency syncTime duration : ℝ) : ℝ :=
  (if jsRem (adjustedNow now sysLatency - syncTime) duration < 0 then
    jsRem (adjustedNow now sysLatency - syncTime) duration + duration
  else
    jsRem (adjustedNow now sysLatency - syncTime) duration) / duration

/-- `restartPlayback` from `App.tsx` (lines 62–108), as a pure function of
the current anchor `startTimeRef.current`, the clock `currentCtxTime`, and
the loop duration; returns the new anchor and the playback offset.  An
anchor `≤ 0` is the "not playing" sentinel (the code tests
`startTimeRef.current > 0`); the final re-anchoring `newStart = now - offset`
is unconditional in the code. -/
def restartPlayback (anchor now duration : ℝ) : ℝ × ℝ :=
  if anchor > 0 then
    (now - (if jsRem (now - anchor) duration < 0 then
        jsRem (now - anchor) duration + duration
      else jsRem (now - anchor) duration),
      if jsRem (now - anchor) duration < 0 then
        jsRem (now - anchor) duration + duration
      else jsRem (now - anchor) duration)
  else
    (now, 0)

/-- The stop branch of `togglePlay` in `App.tsx`: `startTimeRef.current = 0`. -/
def stopAnchor : ℝ := 0

/-- Reference per-sample algorithm, modelled from spec §4.1 with an explicit
`sample_rate` argument: level detection with the `1e-6` floor, hard-knee gain
computation, direction-dependent one-pole ballistics, and gain application
with a per-call makeup factor.  Returns the output buffer. -/
def specOutputs (threshold ratio a r mk : ℝ) : List ℝ → ℝ → List ℝ
  | [], _ => []
  | x :: xs, env =>
      let level_db := if |x| < 0.000001 then -100 else 20 * Real.logb 10 |x|
      let target := if level_db > threshold
        then (level_db - threshold) * (1 - 1 / ratio) else 0
      let env' := if target > env
        then a * env + (1 - a) * target
        else r * env + (1 - r) * target
      x * (10 : ℝ) ^ (-env' / 20) * mk :: specOutputs threshold ratio a r mk xs env'

/-- Reference `process` of spec §4.1, parametrized by `sample_rate`: the
coefficients are `exp(-1/((attack_ms/1000)*sample_rate))` and
`exp(-1/((release_ms/1000)*sample_rate))`, the makeup factor
`10^(makeup_gain_db/20)`, and the envelope starts at 0. -/
def specProcess (input : List ℝ) (params : CompressorParams)
    (sampleRate : ℝ) : List ℝ :=
  specOutputs params.threshold params.ratio
    (Real.exp (-1 / ((params.attack / 1000) * sampleRate)))
    (Real.exp (-1 / ((params.release / 1000) * sampleRate)))
    ((10 : ℝ) ^ (params.makeupGain / 20)) input 0

/-- `DEFAULT_PARAMS` from `App.tsx`. -/
def DEFAULT_PARAMS : CompressorParams :=
  { threshold := -20, ratio := 4, attack := 20, release := 200, makeupGain := 0 }

/-- A parameter set violating the `ratio >= 1` invariant. -/
def ratioHalfParams : CompressorParams :=
  { threshold := -20, ratio := 1 / 2, attack := 20, release := 200, makeupGain := 0 }

/-- `ratioHalfParams` with the ratio clamped per spec §7: `ratio = max(ratio, 1.0)`. -/
def ratioClampedParams : CompressorParams :=
  { threshold := -20, ratio := max (1 / 2) 1, attack := 20, release := 200,
    makeupGain := 0 }

/-- Every element of the list is a linear gain in `(0, 1]`. -/
def withinUnitInterval (l : List ℝ) : Prop := ∀ g ∈ l, 0 < g ∧ g ≤ 1

/-- No sample of the buffer has a detected level above the threshold. -/
def neverExceedsThreshold (threshold : ℝ) (input : List ℝ) : Prop :=
  ∀ x ∈ input, leveldB x ≤ threshold

/-- A parameter set with the degenerate 1:1 ratio. -/
def ratioOneParams : CompressorParams :=
  { threshold := -20, ratio := 1, attack := 20, release := 200, makeupGain := 0 }

/-- A valid parameter set with one-second ballistics time constants. -/
def slowParams : CompressorParams :=
  { threshold := -20, ratio := 2, attack := 1000, release := 1000, makeupGain := 0 }

end

/-! ## Helper lemmas -/

section Helpers

/-- With `ratio = 1` the gain computer always returns 0. -/
lemma targetGRdB_ratio_one (threshold l : ℝ) : targetGRdB threshold 1 l = 0 := by
  unfold targetGRdB
  split <;> simp

/-- With `ratio = 1` the envelope stays at 0. -/
lemma nextEnv_ratio_one (ac rc threshold x : ℝ) :
    nextEnv ac rc threshold 1 0 x = 0 := by
  unfold nextEnv
  simp [targetGRdB_ratio_one]

/-- With `ratio = 1` and a cold envelope, the output buffer is the input
scaled by the makeup factor. -/
lemma processLoop_fst_ratio_one (ac rc threshold mk : ℝ) (xs : List ℝ)
    (m : ℝ) :
    (processLoop ac rc threshold 1 mk xs 0 m).1 = xs.map (fun x => x * mk) := by
  induction xs generalizing m with
  | nil => simp [processLoop]
  | cons x xs ih =>
      simp only [processLoop, nextEnv_ratio_one, List.map_cons]
      rw [ih]
      norm_num

/-- The attack coefficient is positive. -/
lemma attackCoeff_pos (params : CompressorParams) : 0 < attackCoeff params :=
  Real.exp_pos _

/-- The release coefficient is positive. -/
lemma releaseCoeff_pos (params : CompressorParams) : 0 < releaseCoeff params :=
  Real.exp_pos _

/-- For a positive attack time the attack coefficient is below 1. -/
lemma attackCoeff_lt_one (params : CompressorParams) (h : 0 < params.attack) :
    attackCoeff params < 1 := by
  unfold attackCoeff SAMPLE_RATE
  rw [Real.exp_lt_one_iff]
  exact div_neg_of_neg_of_pos (by norm_num)
    (mul_pos (div_pos h (by norm_num)) (by norm_num))

/-- For a positive release time the release coefficient is below 1. -/
lemma releaseCoeff_lt_one (params : CompressorParams) (h : 0 < params.release) :
    releaseCoeff params < 1 := by
  unfold releaseCoeff SAMPLE_RATE
  rw [Real.exp_lt_one_iff]
  exact div_neg_of_neg_of_pos (by norm_num)
    (mul_pos (div_pos h (by norm_num)) (by norm_num))

/-- With `ratio ≥ 1` the gain computer never asks for a negative reduction. -/
lemma targetGRdB_nonneg (threshold ratio l : ℝ) (h : 1 ≤ ratio) :
    0 ≤ targetGRdB threshold ratio l := by
  unfold targetGRdB
  split
  · have h1 : 1 / ratio ≤ 1 := by
      rw [div_le_one (by linarith)]
      exact h
    apply mul_nonneg <;> linarith
  · exact le_rfl

/-- With `ratio > 1` the gain computer asks for a strictly positive reduction
as soon as the level exceeds the threshold. -/
lemma targetGRdB_pos (threshold ratio l : ℝ) (h : 1 < ratio)
    (hl : threshold < l) : 0 < targetGRdB threshold ratio l := by
  unfold targetGRdB
  rw [if_pos hl]
  have h1 : 1 / ratio < 1 := by
    rw [div_lt_one (by linarith)]
    exact h
  apply mul_pos <;> linarith

/-- With coefficients in `[0, 1]` and `ratio ≥ 1` the envelope stays
nonnegative. -/
lemma nextEnv_nonneg (ac rc threshold ratio env x : ℝ)
    (hac : 0 ≤ ac) (hac1 : ac ≤ 1) (hrc : 0 ≤ rc) (hrc1 : rc ≤ 1)
    (hr : 1 ≤ ratio) (henv : 0 ≤ env) :
    0 ≤ nextEnv ac rc threshold ratio env x := by
  have ht := targetGRdB_nonneg threshold ratio (leveldB x) hr
  unfold nextEnv
  split
  · have h1 := mul_nonneg hac henv
    have h2 := mul_nonneg (by linarith : (0 : ℝ) ≤ 1 - ac) ht
    linarith
  · have h1 := mul_nonneg hrc henv
    have h2 := mul_nonneg (by linarith : (0 : ℝ) ≤ 1 - rc) ht
    linarith

/-- With coefficients in `(0, 1)` and a strictly positive target reduction
the envelope becomes strictly positive. -/
lemma nextEnv_pos (ac rc threshold ratio env x : ℝ)
    (hac : 0 < ac) (hac1 : ac < 1) (hrc : 0 < rc) (hrc1 : rc < 1)
    (henv : 0 ≤ env) (ht : 0 < targetGRdB threshold ratio (leveldB x)) :
    0 < nextEnv ac rc threshold ratio env x := by
  unfold nextEnv
  split
  · have h1 := mul_nonneg hac.le henv
    have h2 := mul_pos (by linarith : (0 : ℝ) < 1 - ac) ht
    linarith
  · rename_i hcase
    have henv2 : targetGRdB threshold ratio (leveldB x) ≤ env := not_lt.mp hcase
    have h1 := mul_pos hrc (lt_of_lt_of_le ht henv2)
    have h2 := mul_pos (by linarith : (0 : ℝ) < 1 - rc) ht
    linarith

/-- The applied linear gain `10^(-env/20)` is strictly positive. -/
lemma gain_pos (e : ℝ) : 0 < (10 : ℝ) ^ (-e / 20) :=
  Real.rpow_pos_of_pos (by norm_num) _

/-- For a nonnegative envelope the applied linear gain is at most 1. -/
lemma gain_le_one (e : ℝ) (he : 0 ≤ e) : (10 : ℝ) ^ (-e / 20) ≤ 1 :=
  Real.rpow_le_one_of_one_le_of_nonpos (by norm_num) (by linarith)

/-- Every element of the gain-reduction buffer produced from a nonnegative
envelope lies in `(0, 1]`, given valid coefficients and ratio. -/
lemma processLoop_gr_bounds (ac rc threshold ratio mk : ℝ)
    (hac : 0 < ac) (hac1 : ac < 1) (hrc : 0 < rc) (hrc1 : rc < 1)
    (hr : 1 ≤ ratio) :
    ∀ (xs : List ℝ) (env m : ℝ), 0 ≤ env →
      ∀ g ∈ (processLoop ac rc threshold ratio mk xs env m).2.1,
        0 < g ∧ g ≤ 1 := by
  intro xs
  induction xs with
  | nil => intro env m _ g hg; simp [processLoop] at hg
  | cons x xs ih =>
      intro env m henv g hg
      have henv2 : 0 ≤ nextEnv ac rc threshold ratio env x :=
        nextEnv_nonneg ac rc threshold ratio env x
          hac.le hac1.le hrc.le hrc1.le hr henv
      simp only [processLoop, List.mem_cons] at hg
      rcases hg with rfl | hg
      · exact ⟨gain_pos _, gain_le_one _ henv2⟩
      · exact ih _ _ henv2 g hg

/-- For a positive divisor, the JS remainder after the negative-value
normalization of the code lies in `[0, d)`. -/
lemma normalized_jsRem_mem (a d : ℝ) (hd : 0 < d) :
    0 ≤ (if jsRem a d < 0 then jsRem a d + d else jsRem a d) ∧
      (if jsRem a d < 0 then jsRem a d + d else jsRem a d) < d := by
  have hdne : d ≠ 0 := ne_of_gt hd
  have ha : d * (a / d) = a := by field_simp
  have key : -d < jsRem a d ∧ jsRem a d < d := by
    unfold jsRem truncR
    split
    · have h1 := Int.fract_nonneg (a / d)
      have h2 := Int.fract_lt_one (a / d)
      have hf : a - d * (⌊a / d⌋ : ℝ) = d * Int.fract (a / d) := by
        rw [Int.fract, mul_sub, ha]
      rw [hf]
      constructor
      · have := mul_nonneg hd.le h1
        linarith
      · have := mul_lt_mul_of_pos_left h2 hd
        rw [mul_one] at this
        linarith
    · have h1 : a / d ≤ (⌈a / d⌉ : ℝ) := Int.le_ceil (a / d)
      have h2 : (⌈a / d⌉ : ℝ) < a / d + 1 := Int.ceil_lt_add_one (a / d)
      have hf : a - d * (⌈a / d⌉ : ℝ) = d * (a / d - ⌈a / d⌉) := by
        rw [mul_sub, ha]
      rw [hf]
      constructor
      · have := mul_lt_mul_of_pos_left
          (show (-1 : ℝ) < a / d - ⌈a / d⌉ by linarith) hd
        linarith
      · have := mul_le_mul_of_nonneg_left
          (show a / d - (⌈a / d⌉ : ℝ) ≤ 0 by linarith) hd.le
        linarith
  split
  · constructor <;> [linarith [key.1]; linarith [key.1]]
  · rename_i hcase
    exact ⟨not_lt.mp hcase, key.2⟩

/-- The running maximum reduction never decreases along the loop. -/
lemma processLoop_maxRed_mono (ac rc threshold ratio mk : ℝ) :
    ∀ (xs : List ℝ) (env m : ℝ),
      m ≤ (processLoop ac rc threshold ratio mk xs env m).2.2 := by
  intro xs
  induction xs with
  | nil => intro env m; exact le_rfl
  | cons x xs ih =>
      intro env m
      simp only [processLoop]
      refine le_trans ?_ (ih (nextEnv ac rc threshold ratio env x) _)
      split
      · exact le_of_lt (by assumption)
      · exact le_rfl

/-- A sample at or below threshold leaves a cold envelope cold. -/
lemma nextEnv_quiet (ac rc threshold ratio x : ℝ)
    (h : leveldB x ≤ threshold) : nextEnv ac rc threshold ratio 0 x = 0 := by
  unfold nextEnv
  rw [show targetGRdB threshold ratio (leveldB x) = 0 from by
    unfold targetGRdB; rw [if_neg (not_lt.mpr h)]]
  simp

/-- If no sample exceeds the threshold, the maximum reduction is 0
(for any coefficients and any ratio). -/
lemma processLoop_max_quiet (ac rc threshold ratio mk : ℝ) :
    ∀ xs : List ℝ, neverExceedsThreshold threshold xs →
      (processLoop ac rc threshold ratio mk xs 0 0).2.2 = 0 := by
  intro xs
  induction xs with
  | nil => intro _; rfl
  | cons x xs ih =>
      intro hq
      have hx : leveldB x ≤ threshold := hq x (List.mem_cons_self x xs)
      simp only [processLoop, nextEnv_quiet ac rc threshold ratio x hx]
      rw [if_neg (lt_irrefl 0)]
      exact ih fun y hy => hq y (List.mem_cons_of_mem x hy)

/-- With `ratio = 1` the maximum reduction stays 0 no matter the signal. -/
lemma processLoop_max_ratio_one (ac rc threshold mk : ℝ) :
    ∀ xs : List ℝ, (processLoop ac rc threshold 1 mk xs 0 0).2.2 = 0 := by
  intro xs
  induction xs with
  | nil => rfl
  | cons x xs ih =>
      simp only [processLoop, nextEnv_ratio_one]
      rw [if_neg (lt_irrefl 0)]
      exact ih

/-- If some sample exceeds the threshold and the parameters are strictly
valid (`ratio > 1`, coefficients in `(0,1)`), the maximum reduction is
strictly positive. -/
lemma processLoop_max_pos (ac rc threshold ratio mk : ℝ)
    (hac : 0 < ac) (hac1 : ac < 1) (hrc : 0 < rc) (hrc1 : rc < 1)
    (hr : 1 < ratio) :
    ∀ (xs : List ℝ) (env m : ℝ), 0 ≤ env → 0 ≤ m →
      (∃ x ∈ xs, threshold < leveldB x) →
      0 < (processLoop ac rc threshold ratio mk xs env m).2.2 := by
  intro xs
  induction xs with
  | nil =>
      rintro env m _ _ ⟨x, hx, _⟩
      exact absurd hx (List.not_mem_nil x)
  | cons x xs ih =>
      rintro env m henv hm ⟨y, hy, hexc⟩
      simp only [processLoop]
      rcases List.mem_cons.mp hy with rfl | hy2
      · have ht : 0 < targetGRdB threshold ratio (leveldB y) :=
          targetGRdB_pos _ _ _ hr hexc
        have henv2 : 0 < nextEnv ac rc threshold ratio env y :=
          nextEnv_pos _ _ _ _ _ _ hac hac1 hrc hrc1 henv ht
        refine lt_of_lt_of_le ?_ (processLoop_maxRed_mono ac rc threshold ratio mk xs _ _)
        split
        · exact henv2
        · rename_i hcase
          have : nextEnv ac rc threshold ratio env y ≤ m := not_lt.mp hcase
          linarith
      · have henv2 : 0 ≤ nextEnv ac rc threshold ratio env x :=
          nextEnv_nonneg _ _ _ _ _ _ hac.le hac1.le hrc.le hrc1.le hr.le henv
        have hm2 : 0 ≤ (if nextEnv ac rc threshold ratio env x > m then
            nextEnv ac rc threshold ratio env x else m) := by
          split
          · exact henv2
          · exact hm
        exact ih _ _ henv2 hm2 ⟨y, hy2, hexc⟩

/-- A full-scale sample sits at 0 dB. -/
lemma leveldB_one : leveldB 1 = 0 := by
  unfold leveldB
  rw [abs_one, if_neg (by norm_num)]
  simp [Real.logb_one]

/-- At ratio `1/2` a 0 dB level against a `-20` dB threshold yields a
target reduction of `-20` dB: the sign of the reduction is inverted. -/
lemma targetGRdB_ratioHalf : targetGRdB (-20) (1 / 2) (leveldB 1) = -20 := by
  rw [leveldB_one]
  unfold targetGRdB
  rw [if_pos (by norm_num)]
  norm_num

/-- The envelope after one full-scale sample under `ratioHalfParams`. -/
lemma nextEnv_ratioHalf :
    nextEnv (attackCoeff ratioHalfParams) (releaseCoeff ratioHalfParams)
      ratioHalfParams.threshold ratioHalfParams.ratio 0 1 =
      (1 - releaseCoeff ratioHalfParams) * (-20) := by
  show nextEnv _ _ (-20) (1 / 2) 0 1 = _
  unfold nextEnv
  rw [targetGRdB_ratioHalf, if_neg (by norm_num)]
  ring

/-- The gain-reduction trace of one full-scale sample under
`ratioHalfParams` is the single amplifying gain `10^(1 - releaseCoeff)`. -/
lemma gr_ratioHalf :
    (processAudio [(1 : ℝ)] ratioHalfParams).gainReductionBuffer =
      [(10 : ℝ) ^ (1 - releaseCoeff ratioHalfParams)] := by
  show (processLoop _ _ _ _ _ [(1 : ℝ)] 0 0).2.1 = _
  simp only [processLoop]
  rw [nextEnv_ratioHalf,
    show -((1 - releaseCoeff ratioHalfParams) * (-20)) / 20 =
      1 - releaseCoeff ratioHalfParams from by ring]

/-- The output of one full-scale sample under `ratioHalfParams`. -/
lemma out_ratioHalf :
    (processAudio [(1 : ℝ)] ratioHalfParams).outputBuffer =
      [(10 : ℝ) ^ (1 - releaseCoeff ratioHalfParams)] := by
  show (processLoop _ _ _ _ _ [(1 : ℝ)] 0 0).1 = _
  simp only [processLoop]
  rw [nextEnv_ratioHalf,
    show -((1 - releaseCoeff ratioHalfParams) * (-20)) / 20 =
      1 - releaseCoeff ratioHalfParams from by ring]
  have hmk : makeupLinear ratioHalfParams = 1 := by
    show (10 : ℝ) ^ ((0 : ℝ) / 20) = 1
    rw [zero_div, Real.rpow_zero]
  rw [hmk]
  norm_num

/-- That gain exceeds 1: the trace leaves `(0, 1]`. -/
lemma one_lt_gain_ratioHalf :
    1 < (10 : ℝ) ^ (1 - releaseCoeff ratioHalfParams) := by
  have hrc : releaseCoeff ratioHalfParams < 1 :=
    releaseCoeff_lt_one ratioHalfParams (by norm_num [ratioHalfParams])
  exact (Real.one_lt_rpow_iff_of_pos (by norm_num)).mpr
    (Or.inl ⟨by norm_num, by linarith⟩)

/-- The engine loop and the spec-§4.1 reference loop compute the same
output samples for equal coefficients and makeup factor. -/
lemma processLoop_fst_eq_specOutputs (ac rc threshold ratio mk : ℝ) :
    ∀ (xs : List ℝ) (env m : ℝ),
      (processLoop ac rc threshold ratio mk xs env m).1 =
        specOutputs threshold ratio ac rc mk xs env := by
  intro xs
  induction xs with
  | nil => intro env m; rfl
  | cons x xs ih =>
      intro env m
      simp only [processLoop, specOutputs, nextEnv, targetGRdB, leveldB]
      rw [ih]

/-- The full-scale sample against `threshold = -20`, `ratio = 2` calls for
10 dB of reduction. -/
lemma targetGRdB_slow : targetGRdB (-20) 2 (leveldB 1) = 10 := by
  rw [leveldB_one]
  unfold targetGRdB
  rw [if_pos (by norm_num)]
  norm_num

/-- One ballistics step from a cold envelope on that sample takes the
attack branch, for any coefficients. -/
lemma nextEnv_slow (a r : ℝ) : nextEnv a r (-20) 2 0 1 = (1 - a) * 10 := by
  unfold nextEnv
  rw [targetGRdB_slow, if_pos (by norm_num)]
  ring

/-- The engine's output on `[1]` under `slowParams`: the attack coefficient
is `exp(-1/44100)` because the engine hard-codes the 44100 Hz rate. -/
lemma out_slow :
    (processAudio [(1 : ℝ)] slowParams).outputBuffer =
      [(10 : ℝ) ^ (-((1 - Real.exp (-1 / 44100)) * 10) / 20)] := by
  have ha : attackCoeff slowParams = Real.exp (-1 / 44100) := by
    show Real.exp (-1 / ((1000 / 1000) * SAMPLE_RATE)) = _
    norm_num [SAMPLE_RATE]
  have hmk : makeupLinear slowParams = 1 := by
    show (10 : ℝ) ^ ((0 : ℝ) / 20) = 1
    rw [zero_div, Real.rpow_zero]
  show (processLoop (attackCoeff slowParams) _ _ _ _ [(1 : ℝ)] 0 0).1 = _
  simp only [processLoop]
  rw [show slowParams.threshold = -20 from rfl, show slowParams.ratio = 2 from rfl,
    nextEnv_slow, ha, hmk]
  norm_num

/-- The spec §4.1 reference output on `[1]` under `slowParams` at
`sample_rate = 1`: the attack coefficient is `exp(-1)`. -/
lemma spec_out_slow :
    specProcess [(1 : ℝ)] slowParams 1 =
      [(10 : ℝ) ^ (-((1 - Real.exp (-1 : ℝ)) * 10) / 20)] := by
  unfold specProcess
  rw [← processLoop_fst_eq_specOutputs _ _ _ _ _ [(1 : ℝ)] 0 0]
  have ha : Real.exp (-1 / ((slowParams.attack / 1000) * 1)) =
      Real.exp (-1 : ℝ) := by
    norm_num [slowParams]
  have hmk : (10 : ℝ) ^ (slowParams.makeupGain / 20) = 1 := by
    show (10 : ℝ) ^ ((0 : ℝ) / 20) = 1
    rw [zero_div, Real.rpow_zero]
  simp only [processLoop]
  rw [show slowParams.threshold = -20 from rfl, show slowParams.ratio = 2 from rfl,
    nextEnv_slow, ha, hmk]
  norm_num

/-- The output under the clamped parameters is the unmodified sample. -/
lemma out_ratioClamped :
    (processAudio [(1 : ℝ)] ratioClampedParams).outputBuffer = [1] := by
  have h : ratioClampedParams.ratio = 1 := by
    show max (1 / 2 : ℝ) 1 = 1
    exact max_eq_right (by norm_num)
  show (processLoop _ _ _ ratioClampedParams.ratio _ [(1 : ℝ)] 0 0).1 = _
  rw [h, processLoop_fst_ratio_one]
  have hmk : makeupLinear ratioClampedParams = 1 := by
    show (10 : ℝ) ^ ((0 : ℝ) / 20) = 1
    rw [zero_div, Real.rpow_zero]
  rw [hmk]
  norm_num

end Helpers

/-! ## Claim theorems -/

/-- **C10.** `processAudio` is a pure function of its arguments and returns
the argument buffer itself, element for element, as the `inputBuffer` field
of the result. -/
theorem C10_processAudio_preserves_input (input : List ℝ)
    (params : CompressorParams) :
    (processAudio input params).inputBuffer = input := rfl

/-- Counterexample to **C5** as stated: at `ratio = 1` a full-scale sample
has a detected level of 0 dB, above the `-20` dB threshold, yet
`maxReductiondB = 0`: the equivalence "`max_reduction_db = 0` iff the signal
never exceeds the threshold" fails for this parameter set. -/
theorem C5_counterexample :
    ¬ ((processAudio [(1 : ℝ)] ratioOneParams).maxReductiondB = 0 ↔
        neverExceedsThreshold ratioOneParams.threshold [(1 : ℝ)]) := by
  intro h
  have hmax : (processAudio [(1 : ℝ)] ratioOneParams).maxReductiondB = 0 :=
    processLoop_max_ratio_one (attackCoeff ratioOneParams)
      (releaseCoeff ratioOneParams) ratioOneParams.threshold
      (makeupLinear ratioOneParams) [(1 : ℝ)]
  have hq := h.mp hmax 1 (List.mem_singleton_self 1)
  rw [leveldB_one] at hq
  have : ratioOneParams.threshold = -20 := rfl
  rw [this] at hq
  norm_num at hq

/-- **C5 (amended).** `maxReductiondB` is at least 0 for every input and
every parameter set; and for parameter sets with `ratio > 1`, `attack > 0`,
`release > 0` it equals 0 exactly when no sample's detected level exceeds
the threshold.  (At `ratio = 1` the "only if" direction fails, see the
counterexample.) -/
theorem C5_max_reduction_characterization (input : List ℝ)
    (params : CompressorParams) :
    0 ≤ (processAudio input params).maxReductiondB ∧
      (1 < params.ratio → 0 < params.attack → 0 < params.release →
        ((processAudio input params).maxReductiondB = 0 ↔
          neverExceedsThreshold params.threshold input)) := by
  constructor
  · exact processLoop_maxRed_mono (attackCoeff params) (releaseCoeff params)
      params.threshold params.ratio (makeupLinear params) input 0 0
  · intro hr h2 h3
    constructor
    · intro hmax
      by_contra hq
      unfold neverExceedsThreshold at hq
      push_neg at hq
      obtain ⟨x, hx, hlt⟩ := hq
      have hpos := processLoop_max_pos (attackCoeff params)
        (releaseCoeff params) params.threshold params.ratio
        (makeupLinear params) (attackCoeff_pos params)
        (attackCoeff_lt_one params h2) (releaseCoeff_pos params)
        (releaseCoeff_lt_one params h3) hr input 0 0 le_rfl le_rfl
        ⟨x, hx, hlt⟩
      exact (ne_of_gt hpos) hmax
    · intro hq
      exact processLoop_max_quiet (attackCoeff params) (releaseCoeff params)
        params.threshold params.ratio (makeupLinear params) input hq

/-- Witness for **C5 (amended)** at the default parameters on the silent
one-sample buffer `[0]`. -/
theorem C5_witness :
    1 < DEFAULT_PARAMS.ratio ∧ 0 < DEFAULT_PARAMS.attack ∧
      0 < DEFAULT_PARAMS.release ∧
      0 ≤ (processAudio [(0 : ℝ)] DEFAULT_PARAMS).maxReductiondB ∧
      ((processAudio [(0 : ℝ)] DEFAULT_PARAMS).maxReductiondB = 0 ↔
        neverExceedsThreshold DEFAULT_PARAMS.threshold [(0 : ℝ)]) :=
  ⟨by norm_num [DEFAULT_PARAMS], by norm_num [DEFAULT_PARAMS],
    by norm_num [DEFAULT_PARAMS],
    (C5_max_reduction_characterization [(0 : ℝ)] DEFAULT_PARAMS).1,
    (C5_max_reduction_characterization [(0 : ℝ)] DEFAULT_PARAMS).2
      (by norm_num [DEFAULT_PARAMS]) (by norm_num [DEFAULT_PARAMS])
      (by norm_num [DEFAULT_PARAMS])⟩

/-- Counterexample to **C6** as stated: for a one-sample buffer the
`duration` field of the result is the constant 3.0, not
`input.length / sample_rate = 1/44100`. -/
theorem C6_counterexample :
    (processAudio [(0 : ℝ)] DEFAULT_PARAMS).duration ≠
      (([(0 : ℝ)].length : ℝ)) / (processAudio [(0 : ℝ)] DEFAULT_PARAMS).sampleRate := by
  simp only [processAudio, DURATION, SAMPLE_RATE, List.length_cons,
    List.length_nil]
  norm_num

/-- **C6 (amended).** `processAudio` takes no `sample_rate` argument: the
result's `sampleRate` field is always the constant 44100 and its `duration`
field is always the constant 3.0, independent of the input buffer length. -/
theorem C6_fields_are_constants (input : List ℝ) (params : CompressorParams) :
    (processAudio input params).sampleRate = 44100 ∧
      (processAudio input params).duration = 3 :=
  ⟨rfl, rfl⟩

/-- Counterexample to **C8** as stated: with `now = 0` and a reported
latency of `0`, the latency-compensated timestamp is `0.18`, not
`now - output_latency = 0`: the code adds the hand-tuned constant
`manualOffset = -0.18` to the reported latency. -/
theorem C8_counterexample : adjustedNow 0 0 ≠ (0 : ℝ) - 0 := by
  unfold adjustedNow manualOffset
  norm_num

/-- **C8 (amended).** The latency-compensated timestamp is
`now - (output_latency + manualOffset)` with the hand-tuned constant
`manualOffset = -0.18`, i.e. `now - output_latency + 0.18`. -/
theorem C8_adjusted_now (now sysLatency : ℝ) :
    adjustedNow now sysLatency = now - sysLatency + 0.18 := by
  unfold adjustedNow manualOffset
  ring

/-- Counterexample to **C7** as stated: the code has no special case for
`duration <= 0`.  At `now = 5`, reported latency `0.18`, anchor `0`, and
`duration = -3`, the computation yields `2 / (-3) = -2/3`, not the claimed
`0` (and not a value in `[0, 1)`). -/
theorem C7_counterexample : playbackProgress 5 0.18 0 (-3) ≠ 0 := by
  have hads : adjustedNow 5 0.18 - 0 = 5 := by
    unfold adjustedNow manualOffset
    norm_num
  have htr : truncR ((5 : ℝ) / (-3)) = -1 := by
    unfold truncR
    rw [if_neg (by norm_num), Int.ceil_eq_iff]
    constructor <;> norm_num
  have hrem : jsRem 5 (-3) = 2 := by
    unfold jsRem
    rw [htr]
    norm_num
  unfold playbackProgress
  rw [hads, hrem, if_neg (by norm_num)]
  norm_num

/-- **C7 (amended).** For every real `now`, reported latency, anchor, and
every `duration > 0`, the playback-phase computation returns a value in
`[0, 1)` (negative elapsed time, e.g. `now` before the anchor, is normalized
into `[0, duration)` before dividing).  The code performs no division by
zero for `duration > 0`, but it does not define the result as 0 for
`duration ≤ 0`. -/
theorem C7_phase_in_unit_interval (now sysLatency syncTime duration : ℝ)
    (hd : 0 < duration) :
    0 ≤ playbackProgress now sysLatency syncTime duration ∧
      playbackProgress now sysLatency syncTime duration < 1 := by
  obtain ⟨h1, h2⟩ :=
    normalized_jsRem_mem (adjustedNow now sysLatency - syncTime) duration hd
  unfold playbackProgress
  constructor
  · exact div_nonneg h1 hd.le
  · rw [div_lt_one hd]
    exact h2

/-- Witness for **C7 (amended)** at `now = 5`, latency `0.18`, anchor `0`,
duration `3` (the loop period of the shipped signal). -/
theorem C7_witness :
    (0 : ℝ) < 3 ∧ 0 ≤ playbackProgress 5 0.18 0 3 ∧
      playbackProgress 5 0.18 0 3 < 1 :=
  ⟨by norm_num, (C7_phase_in_unit_interval 5 0.18 0 3 (by norm_num)).1,
    (C7_phase_in_unit_interval 5 0.18 0 3 (by norm_num)).2⟩

/-- **C9.** A restart performed while the anchor holds the unset sentinel
(initial state, or after the stop branch of `togglePlay` wrote
`startTimeRef.current = 0`) returns offset 0 and anchors the loop at `now`;
and the start-after-stop path of `togglePlay`, which first re-seeds the
anchor with the current clock, also obtains offset 0. -/
theorem C9_restart_from_unset (now duration : ℝ) :
    restartPlayback stopAnchor now duration = (now, 0) ∧
      (restartPlayback now now duration).2 = 0 := by
  constructor
  · simp [restartPlayback, stopAnchor]
  · unfold restartPlayback
    split
    · simp [jsRem, truncR]
    · rfl

/-- Counterexample to **C1** as stated: `processAudio` takes no
`sample_rate` argument and hard-codes 44100 Hz, so at `sample_rate = 1 > 0`
(with fully valid parameters) its output differs from the §4.1 reference
algorithm evaluated at that rate. -/
theorem C1_counterexample :
    (0 : ℝ) < 1 ∧ 1 ≤ slowParams.ratio ∧ 0 < slowParams.attack ∧
      0 < slowParams.release ∧
      (processAudio [(1 : ℝ)] slowParams).outputBuffer ≠
        specProcess [(1 : ℝ)] slowParams 1 := by
  refine ⟨by norm_num, by norm_num [slowParams], by norm_num [slowParams],
    by norm_num [slowParams], ?_⟩
  rw [out_slow, spec_out_slow]
  have he : Real.exp (-1 : ℝ) < Real.exp (-1 / 44100) :=
    Real.exp_lt_exp.mpr (by norm_num)
  have hg : (10 : ℝ) ^ (-((1 - Real.exp (-1 : ℝ)) * 10) / 20) <
      (10 : ℝ) ^ (-((1 - Real.exp (-1 / 44100)) * 10) / 20) :=
    (Real.rpow_lt_rpow_left_iff (by norm_num)).mpr (by linarith)
  intro h
  have h2 : (10 : ℝ) ^ (-((1 - Real.exp (-1 / 44100)) * 10) / 20) =
      (10 : ℝ) ^ (-((1 - Real.exp (-1 : ℝ)) * 10) / 20) := by
    simpa using h
  linarith

/-- **C1 (amended).** For every input buffer and every parameter set with
`ratio ≥ 1`, `attack > 0`, `release > 0`, `processAudio` computes each
output sample by the reference per-sample algorithm of spec §4.1 evaluated
at the engine's fixed sample rate of 44100 Hz (level detection with the
`1e-6` floor, hard-knee gain computation, direction-dependent one-pole
ballistics from a cold envelope, makeup factor computed once per call). -/
theorem C1_matches_reference_at_44100 (input : List ℝ)
    (params : CompressorParams) (h1 : 1 ≤ params.ratio)
    (h2 : 0 < params.attack) (h3 : 0 < params.release) :
    (processAudio input params).outputBuffer = specProcess input params 44100 := by
  show (processLoop _ _ _ _ _ input 0 0).1 = _
  rw [processLoop_fst_eq_specOutputs]
  rfl

/-- Witness for **C1 (amended)** at the default parameters on `[0]`. -/
theorem C1_witness :
    1 ≤ DEFAULT_PARAMS.ratio ∧ 0 < DEFAULT_PARAMS.attack ∧
      0 < DEFAULT_PARAMS.release ∧
      (processAudio [(0 : ℝ)] DEFAULT_PARAMS).outputBuffer =
        specProcess [(0 : ℝ)] DEFAULT_PARAMS 44100 :=
  ⟨by norm_num [DEFAULT_PARAMS], by norm_num [DEFAULT_PARAMS],
    by norm_num [DEFAULT_PARAMS],
    C1_matches_reference_at_44100 [(0 : ℝ)] DEFAULT_PARAMS
      (by norm_num [DEFAULT_PARAMS]) (by norm_num [DEFAULT_PARAMS])
      (by norm_num [DEFAULT_PARAMS])⟩

/-- Counterexample to **C2** as stated: for the parameter set with
`ratio = 1/2` (and a full-scale one-sample buffer) the single element of the
gain-reduction trace is `10^(1 - releaseCoeff) > 1`, outside `(0, 1]`. -/
theorem C2_counterexample :
    ¬ withinUnitInterval
      (processAudio [(1 : ℝ)] ratioHalfParams).gainReductionBuffer := by
  intro h
  rw [gr_ratioHalf] at h
  have h2 := (h _ (List.mem_singleton_self _)).2
  exact absurd h2 (not_le.mpr one_lt_gain_ratioHalf)

/-- **C2 (amended).** For every input buffer and every parameter set
satisfying the data-model constraints `ratio ≥ 1`, `attack > 0`,
`release > 0`, every element of the gain-reduction trace returned by
`processAudio` is strictly greater than 0 and at most 1. -/
theorem C2_gain_trace_in_unit_interval (input : List ℝ)
    (params : CompressorParams) (h1 : 1 ≤ params.ratio)
    (h2 : 0 < params.attack) (h3 : 0 < params.release) :
    withinUnitInterval (processAudio input params).gainReductionBuffer := by
  intro g hg
  exact processLoop_gr_bounds (attackCoeff params) (releaseCoeff params)
    params.threshold params.ratio (makeupLinear params)
    (attackCoeff_pos params) (attackCoeff_lt_one params h2)
    (releaseCoeff_pos params) (releaseCoeff_lt_one params h3) h1
    input 0 0 le_rfl g hg

/-- Witness for **C2 (amended)** at the default parameters on `[0]`. -/
theorem C2_witness :
    1 ≤ DEFAULT_PARAMS.ratio ∧ 0 < DEFAULT_PARAMS.attack ∧
      0 < DEFAULT_PARAMS.release ∧
      withinUnitInterval
        (processAudio [(0 : ℝ)] DEFAULT_PARAMS).gainReductionBuffer :=
  ⟨by norm_num [DEFAULT_PARAMS], by norm_num [DEFAULT_PARAMS],
    by norm_num [DEFAULT_PARAMS],
    C2_gain_trace_in_unit_interval [(0 : ℝ)] DEFAULT_PARAMS
      (by norm_num [DEFAULT_PARAMS]) (by norm_num [DEFAULT_PARAMS])
      (by norm_num [DEFAULT_PARAMS])⟩

/-- Counterexample to **C3** as stated: `processAudio` performs no clamping,
so with `ratio = 1/2` the result differs from processing the same input with
the ratio clamped to `max(ratio, 1.0) = 1` (the reduction sign inverts and
the sample is amplified instead of left untouched). -/
theorem C3_counterexample :
    ratioHalfParams.ratio < 1 ∧
      (processAudio [(1 : ℝ)] ratioHalfParams).outputBuffer ≠
        (processAudio [(1 : ℝ)] ratioClampedParams).outputBuffer := by
  refine ⟨by norm_num [ratioHalfParams], ?_⟩
  rw [out_ratioHalf, out_ratioClamped]
  intro h
  have h2 : (10 : ℝ) ^ (1 - releaseCoeff ratioHalfParams) = 1 := by
    simpa using h
  have := one_lt_gain_ratioHalf
  linarith

/-- **C3 (amended).** `processAudio` applies the parameters exactly as
given, with no clamping; for parameter sets that already satisfy the
data-model constraints `ratio ≥ 1`, `attack > 0`, `release > 0`, the gain
computation never inverts the sign of the reduction: the target reduction is
nonnegative for every sample and the smoothed envelope stays nonnegative
(and `ratio ≥ 1 > 0` rules out division by zero in `1 - 1/ratio`). -/
theorem C3_no_sign_inversion_for_valid_params (params : CompressorParams)
    (x env : ℝ) (h1 : 1 ≤ params.ratio) (h2 : 0 < params.attack)
    (h3 : 0 < params.release) (henv : 0 ≤ env) :
    0 ≤ targetGRdB params.threshold params.ratio (leveldB x) ∧
      0 ≤ nextEnv (attackCoeff params) (releaseCoeff params)
        params.threshold params.ratio env x :=
  ⟨targetGRdB_nonneg _ _ _ h1,
    nextEnv_nonneg _ _ _ _ _ _ (attackCoeff_pos params).le
      (attackCoeff_lt_one params h2).le (releaseCoeff_pos params).le
      (releaseCoeff_lt_one params h3).le h1 henv⟩

/-- Witness for **C3 (amended)** at the default parameters, a full-scale
sample, and a cold envelope. -/
theorem C3_witness :
    1 ≤ DEFAULT_PARAMS.ratio ∧ 0 < DEFAULT_PARAMS.attack ∧
      0 < DEFAULT_PARAMS.release ∧ 0 ≤ (0 : ℝ) ∧
      (0 ≤ targetGRdB DEFAULT_PARAMS.threshold DEFAULT_PARAMS.ratio
          (leveldB 1) ∧
        0 ≤ nextEnv (attackCoeff DEFAULT_PARAMS) (releaseCoeff DEFAULT_PARAMS)
          DEFAULT_PARAMS.threshold DEFAULT_PARAMS.ratio 0 1) :=
  ⟨by norm_num [DEFAULT_PARAMS], by norm_num [DEFAULT_PARAMS],
    by norm_num [DEFAULT_PARAMS], le_rfl,
    C3_no_sign_inversion_for_valid_params DEFAULT_PARAMS 1 0
      (by norm_num [DEFAULT_PARAMS]) (by norm_num [DEFAULT_PARAMS])
      (by norm_num [DEFAULT_PARAMS]) le_rfl⟩

/-- **C4.** With `ratio = 1` the compressor never applies any reduction:
every output sample is the input sample times the makeup factor
`10^(makeupGain/20)`, for every threshold, attack, release, and makeup
setting. -/
theorem C4_ratio_one_is_makeup_only (input : List ℝ)
    (params : CompressorParams) (h : params.ratio = 1) :
    (processAudio input params).outputBuffer =
      input.map (fun x => x * (10 : ℝ) ^ (params.makeupGain / 20)) := by
  unfold processAudio
  rw [h, processLoop_fst_ratio_one]
  rfl

/-- Witness for **C4** at the default parameters with the ratio set to 1 on
the two-sample buffer `[1/2, 0]`. -/
theorem C4_witness :
    ({ threshold := -20, ratio := 1, attack := 20, release := 200,
        makeupGain := 0 : CompressorParams }).ratio = 1 ∧
      (processAudio [(1 : ℝ) / 2, 0]
          { threshold := -20, ratio := 1, attack := 20, release := 200,
            makeupGain := 0 }).outputBuffer =
        [(1 : ℝ) / 2, 0].map (fun x => x * (10 : ℝ) ^ ((0 : ℝ) / 20)) :=
  ⟨rfl, C4_ratio_one_is_makeup_only [(1 : ℝ) / 2, 0] _ rfl⟩

end AudioSim
